import Mathlib

/-!
Shallow embedding of the Peazy MCP app (`src/index.ts` and
`src/resources/tutorial-player/widget.tsx`): the typed upstream client with
retry/failover, the manifest cache with in-flight deduplication, tool-level
error normalization, the poom reference codec, run-id resolution, the
open-run-player guard, and the job-polling state machine.
-/

set_option autoImplicit false

namespace Peazy

/-- The uniform tool error shape `{code, message, retryable}` (src/index.ts lines 4-8). -/
structure ToolError where
  code : String
  message : String
  retryable : Bool
  deriving DecidableEq, Repr

/-- Values that JavaScript code in this app can throw: an object carrying
string `code` and `message` fields (the `ToolError`-shaped throws), an
`Error` instance with its `name` and `message`, or anything else. -/
inductive JsValue where
  | errObj (code : String) (message : String) (retryable : Bool)
  | jsError (name : String) (message : String)
  | other
  deriving DecidableEq, Repr

/-- A JSON body as far as the client inspects it: an optional embedded
`error` payload plus an opaque tag distinguishing payloads. -/
inductive Json where
  | mk (errorField : Option ToolError) (tag : Nat)
  deriving DecidableEq, Repr

/-- The `{}` that `response.json().catch(() => ({}))` degrades to. -/
def emptyObj : Json := .mk none 0

def Json.errorField : Json → Option ToolError
  | .mk e _ => e

/-- Timeout used in normalizeError messages (env default 9000, line 19). -/
def ADK_API_TIMEOUT_MS : Nat := 9000

/-- `normalizeError` (src/index.ts lines 199-224), parameterized by the
configured base URL that is interpolated into the synthesized messages. -/
def normalizeError (baseUrl : String) (err : JsValue) : ToolError :=
  match err with
  | .errObj c m r => ⟨c, m, r⟩
  | .jsError name msg =>
    if name = "AbortError" then
      ⟨"UPSTREAM_TIMEOUT",
        "ADK runtime timeout after " ++ toString ADK_API_TIMEOUT_MS ++ "ms (" ++ baseUrl ++ ")",
        true⟩
    else
      ⟨"UPSTREAM_TIMEOUT", msg ++ " (" ++ baseUrl ++ ")", true⟩
  | .other =>
    ⟨"UPSTREAM_TIMEOUT", "Unknown upstream failure (" ++ baseUrl ++ ")", true⟩

/-- A tool invocation's observable result: a structured success payload or
the structured error envelope built by `toolError` (lines 226-229). -/
inductive ToolResponse (α : Type) where
  | success (payload : α)
  | errorEnvelope (text : String)
  deriving DecidableEq, Repr

/-- The dispatcher boundary: every tool handler body runs inside
`try ... catch (err) { return toolError(err) }`, so a body outcome is mapped
to a structured response (lines 379-386 and the analogous handlers). -/
def dispatchTool {α : Type} (baseUrl : String) (outcome : Except JsValue α) : ToolResponse α :=
  match outcome with
  | .ok a => .success a
  | .error e =>
    .errorEnvelope ((normalizeError baseUrl e).code ++ ": " ++ (normalizeError baseUrl e).message)

/-- Outcome of one `fetch` attempt against one base: the promise rejects
(network error or abort), or a response arrives with a status and a JSON
body (`none` models a malformed body that fails to parse). -/
inductive AttemptOutcome where
  | thrown (e : JsValue)
  | response (status : Nat) (body : Option Json)
  deriving DecidableEq, Repr

/-- `response.ok`: status in the 2xx range. -/
def respOk (status : Nat) : Bool := 200 ≤ status && status < 300

/-- The error thrown for a non-ok response (src/index.ts lines 258-274):
an embedded `{error: {code, message, retryable}}` with truthy code and
message is propagated verbatim; otherwise 404 maps to `RUN_NOT_FOUND` and
any other non-2xx to `UPSTREAM_TIMEOUT`, retryable iff status ≥ 500. -/
def classifyFailure (status : Nat) (data : Json) : JsValue :=
  match data.errorField with
  | some u =>
    if u.code ≠ "" ∧ u.message ≠ "" then
      .errObj u.code u.message u.retryable
    else
      .errObj (if status = 404 then "RUN_NOT_FOUND" else "UPSTREAM_TIMEOUT")
        ("ADK runtime request failed (" ++ toString status ++ ")")
        (500 ≤ status)
  | none =>
    .errObj (if status = 404 then "RUN_NOT_FOUND" else "UPSTREAM_TIMEOUT")
      ("ADK runtime request failed (" ++ toString status ++ ")")
      (500 ≤ status)

/-- `fetchJson` (src/index.ts lines 237-285). `behavior i a` is the outcome
of the attempt numbered `a` issued against base `i`; `numBases` is
`ADK_UPSTREAM_BASES.length`. A 502/503 with `attempt < 1` retries the same
base with `attempt + 1` (that recursive promise is returned, so its
rejection is NOT caught by this frame's catch). Any error caught in this
frame — a rejected fetch or the thrown classification of a non-ok
response — fails over to `upstreamIndex + 1` carrying the current
`attempt`, or propagates once the bases are exhausted. -/
def fetchJson (behavior : Nat → Nat → AttemptOutcome) (numBases : Nat)
    (attempt : Nat) (upstreamIndex : Nat) : Except JsValue Json :=
  match behavior upstreamIndex attempt with
  | .thrown e =>
    if upstreamIndex + 1 < numBases then
      fetchJson behavior numBases attempt (upstreamIndex + 1)
    else
      .error e
  | .response status body =>
    if h : (status = 502 ∨ status = 503) ∧ attempt < 1 then
      fetchJson behavior numBases (attempt + 1) upstreamIndex
    else
      let data := body.getD emptyObj
      if respOk status then
        .ok data
      else if upstreamIndex + 1 < numBases then
        fetchJson behavior numBases attempt (upstreamIndex + 1)
      else
        .error (classifyFailure status data)
  termination_by (numBases - upstreamIndex) * 2 + (1 - attempt)
  decreasing_by
  · omega
  · omega
  · omega

/-- What §4.1 of the spec literally prescribes for failover: advance to the
next candidate base and retry the whole call *from attempt 0* against that
base. Identical to `fetchJson` except that both failover recursions reset
the attempt counter to 0. Stated for comparison with the source's
`fetchJson`, which carries the current attempt over. -/
def fetchJsonSpecRestart (behavior : Nat → Nat → AttemptOutcome) (numBases : Nat)
    (attempt : Nat) (upstreamIndex : Nat) : Except JsValue Json :=
  match behavior upstreamIndex attempt with
  | .thrown e =>
    if upstreamIndex + 1 < numBases then
      fetchJsonSpecRestart behavior numBases 0 (upstreamIndex + 1)
    else
      .error e
  | .response status body =>
    if h : (status = 502 ∨ status = 503) ∧ attempt < 1 then
      fetchJsonSpecRestart behavior numBases (attempt + 1) upstreamIndex
    else
      let data := body.getD emptyObj
      if respOk status then
        .ok data
      else if upstreamIndex + 1 < numBases then
        fetchJsonSpecRestart behavior numBases 0 (upstreamIndex + 1)
      else
        .error (classifyFailure status data)
  termination_by (numBases - upstreamIndex) * 2 + (1 - attempt)
  decreasing_by
  · omega
  · omega
  · omega

/-- Upstream behavior refuting the "retry from attempt 0 after failover"
reading: base 0 always answers 502; base 1 answers 200 on its first attempt
(attempt 0) and 502 afterwards. -/
def restartProbeBehavior : Nat → Nat → AttemptOutcome := fun idx attempt =>
  if idx = 0 then .response 502 none
  else if idx = 1 ∧ attempt = 0 then .response 200 (some (.mk none 7))
  else .response 502 none

/-- Characters that `encodeURIComponent` leaves unescaped:
`A-Z a-z 0-9 - _ . ! ~ * ' ( )` (given by code point to avoid literals). -/
def isUriUnreserved (c : Char) : Bool :=
  (65 ≤ c.toNat && c.toNat ≤ 90) || (97 ≤ c.toNat && c.toNat ≤ 122) ||
  (48 ≤ c.toNat && c.toNat ≤ 57) || c.toNat = 45 || c.toNat = 95 || c.toNat = 46 ||
  c.toNat = 33 || c.toNat = 126 || c.toNat = 42 || c.toNat = 39 || c.toNat = 40 || c.toNat = 41

/-- The UTF-8 byte sequence of a code point. -/
def utf8Bytes (n : Nat) : List Nat :=
  if n < 128 then [n]
  else if n < 2048 then [192 + n / 64, 128 + n % 64]
  else if n < 65536 then [224 + n / 4096, 128 + n / 64 % 64, 128 + n % 64]
  else [240 + n / 262144, 128 + n / 4096 % 64, 128 + n / 64 % 64, 128 + n % 64]

/-- Uppercase hex digit for a nibble, as emitted by `encodeURIComponent`. -/
def hexDigitChar (n : Nat) : Char :=
  if n < 10 then Char.ofNat (48 + n) else Char.ofNat (55 + n)

/-- Value of a hex digit character (both cases), `none` otherwise. -/
def hexVal (c : Char) : Option Nat :=
  if 48 ≤ c.toNat && c.toNat ≤ 57 then some (c.toNat - 48)
  else if 65 ≤ c.toNat && c.toNat ≤ 70 then some (c.toNat - 55)
  else if 97 ≤ c.toNat && c.toNat ≤ 102 then some (c.toNat - 87)
  else none

/-- The `%XX` escape of one byte. -/
def pctTriple (b : Nat) : List Char :=
  [Char.ofNat 37, hexDigitChar (b / 16), hexDigitChar (b % 16)]

/-- `encodeURIComponent` on one character: unreserved characters pass
through, everything else becomes the `%XX` escapes of its UTF-8 bytes. -/
def encChar (c : Char) : List Char :=
  if isUriUnreserved c then [c] else (utf8Bytes c.toNat).flatMap pctTriple

/-- Model of the JavaScript builtin `encodeURIComponent` on a character list. -/
def encodeURIComponentL (s : List Char) : List Char :=
  s.flatMap encChar

/-- A token of a percent-encoded string: a plain character, or the byte
value of one `%XX` escape. -/
inductive PctToken where
  | chr (c : Char)
  | byte (b : Nat)
  deriving DecidableEq, Repr

/-- First stage of `decodeURIComponent`: replace every `%XX` escape by its
byte value, failing on a `%` that is not followed by two hex digits. -/
def pctTokens : List Char → Option (List PctToken)
  | [] => some []
  | c :: rest =>
    if c = Char.ofNat 37 then
      match rest with
      | h1 :: h2 :: rest2 =>
        match hexVal h1, hexVal h2 with
        | some a1, some a2 => (pctTokens rest2).map (fun l => .byte (16 * a1 + a2) :: l)
        | _, _ => none
      | _ => none
    else
      (pctTokens rest).map (fun l => .chr c :: l)

/-- Is `b` a UTF-8 continuation byte? -/
def isCont (b : Nat) : Bool := 128 ≤ b && b ≤ 191

/-- Admissible second byte after a three-byte UTF-8 lead (strict UTF-8:
no overlong forms, no surrogates). -/
def lead3Ok (b0 b1 : Nat) : Bool :=
  (b0 = 224 && 160 ≤ b1 && b1 ≤ 191) ||
  (225 ≤ b0 && b0 ≤ 236 && isCont b1) ||
  (b0 = 237 && 128 ≤ b1 && b1 ≤ 159) ||
  (238 ≤ b0 && b0 ≤ 239 && isCont b1)

/-- Admissible second byte after a four-byte UTF-8 lead (strict UTF-8:
no overlong forms, nothing above U+10FFFF). -/
def lead4Ok (b0 b1 : Nat) : Bool :=
  (b0 = 240 && 144 ≤ b1 && b1 ≤ 191) ||
  (241 ≤ b0 && b0 ≤ 243 && isCont b1) ||
  (b0 = 244 && 128 ≤ b1 && b1 ≤ 143)

/-- Pop one byte token; anything else (a plain character or the end of
input) fails, since a multi-byte sequence must consist of `%XX` escapes. -/
def nextByte : List PctToken → Option (Nat × List PctToken)
  | .byte b :: rest => some (b, rest)
  | _ => none

/-- `nextByte` consumes exactly one token. -/
theorem nextByte_length (l : List PctToken) (b : Nat) (r : List PctToken)
    (h : nextByte l = some (b, r)) : r.length + 1 = l.length := by
  match l, h with
  | .byte b1 :: rest, h =>
    simp [nextByte] at h
    simp [h.2]

set_option linter.unusedVariables false in
/-- Second stage of `decodeURIComponent`: strict UTF-8 decoding of the byte
tokens; plain characters pass through, and every continuation byte of a
multi-byte sequence must itself be a byte token. -/
def tokensDecode : List PctToken → Option (List Char)
  | [] => some []
  | .chr c :: rest => (tokensDecode rest).map (fun l => c :: l)
  | .byte b0 :: rest =>
    if b0 < 128 then
      (tokensDecode rest).map (fun l => Char.ofNat b0 :: l)
    else if b0 < 194 then none
    else if b0 < 224 then
      match h1 : nextByte rest with
      | some (b1, rest2) =>
        if isCont b1 then
          (tokensDecode rest2).map (fun l => Char.ofNat ((b0 - 192) * 64 + (b1 - 128)) :: l)
        else none
      | none => none
    else if b0 < 240 then
      match h1 : nextByte rest with
      | some (b1, rest2) =>
        match h2 : nextByte rest2 with
        | some (b2, rest3) =>
          if lead3Ok b0 b1 && isCont b2 then
            (tokensDecode rest3).map
              (fun l => Char.ofNat ((b0 - 224) * 4096 + (b1 - 128) * 64 + (b2 - 128)) :: l)
          else none
        | none => none
      | none => none
    else if b0 < 245 then
      match h1 : nextByte rest with
      | some (b1, rest2) =>
        match h2 : nextByte rest2 with
        | some (b2, rest3) =>
          match h3 : nextByte rest3 with
          | some (b3, rest4) =>
            if lead4Ok b0 b1 && isCont b2 && isCont b3 then
              (tokensDecode rest4).map
                (fun l =>
                  Char.ofNat
                    ((b0 - 240) * 262144 + (b1 - 128) * 4096 + (b2 - 128) * 64 + (b3 - 128)) :: l)
            else none
          | none => none
        | none => none
      | none => none
    else none
  termination_by l => l.length
  decreasing_by
  · simp
  · simp
  · have := nextByte_length rest b1 rest2 h1
    simp
    omega
  · have e1 := nextByte_length rest b1 rest2 h1
    have e2 := nextByte_length rest2 b2 rest3 h2
    simp
    omega
  · have e1 := nextByte_length rest b1 rest2 h1
    have e2 := nextByte_length rest2 b2 rest3 h2
    have e3 := nextByte_length rest3 b3 rest4 h3
    simp
    omega

/-- Model of the JavaScript builtin `decodeURIComponent` on a character
list; `none` models a thrown `URIError`. -/
def decodeURIComponentL (s : List Char) : Option (List Char) :=
  (pctTokens s).bind tokensDecode

/-- Whitespace for the purposes of `String.prototype.trim`. -/
def isJsWhitespace (c : Char) : Bool :=
  c.toNat = 9 || c.toNat = 10 || c.toNat = 11 || c.toNat = 12 || c.toNat = 13 ||
  c.toNat = 32 || c.toNat = 160 || c.toNat = 5760 ||
  (8192 ≤ c.toNat && c.toNat ≤ 8202) || c.toNat = 8232 || c.toNat = 8233 ||
  c.toNat = 8239 || c.toNat = 8287 || c.toNat = 12288 || c.toNat = 65279

/-- Model of `String.prototype.trim` on a character list. -/
def trimCharsL (s : List Char) : List Char :=
  ((s.dropWhile isJsWhitespace).reverse.dropWhile isJsWhitespace).reverse

/-- Line terminators, which `.` does not match in a JavaScript regex. -/
def isLineTerm (c : Char) : Bool :=
  c.toNat = 10 || c.toNat = 13 || c.toNat = 8232 || c.toNat = 8233

/-- The 11 pattern characters the poom regex anchors on. -/
def poomUrlHead : List Char := "poom://run/".data

/-- Match of `/^poom:\/\/run\/(.+)$/i`: the whole (trimmed) input is the
case-insensitive head followed by a nonempty group with no line
terminator, and the result is that group. -/
def poomCapture (t : List Char) : Option (List Char) :=
  if (t.take 11).map Char.toLower = poomUrlHead ∧ t.drop 11 ≠ [] ∧
      (t.drop 11).all (fun c => !isLineTerm c) then
    some (t.drop 11)
  else none

/-- The 7 pattern characters after `[?&]` in the query regex. -/
def queryKey : List Char := "run_id=".data

/-- Characters admissible in the `[^&#]+` group. -/
def notAmpHash (c : Char) : Bool := !(c = Char.ofNat 38 || c = Char.ofNat 35)

/-- Does the list start with a character that `[^&#]` matches? -/
def headNotAmpHash : List Char → Bool
  | [] => false
  | d :: _ => notAmpHash d

/-- Leftmost match of `/[?&]run_id=([^&#]+)/i`, returning the group. -/
def queryCapture : List Char → Option (List Char)
  | [] => none
  | c :: rest =>
    if (c = Char.ofNat 63 ∨ c = Char.ofNat 38) ∧
        (rest.take 7).map Char.toLower = queryKey ∧ headNotAmpHash (rest.drop 7) then
      some ((rest.drop 7).takeWhile notAmpHash)
    else queryCapture rest

/-- The `URIError` thrown by `decodeURIComponent` on malformed input. -/
def uriError : JsValue := .jsError "URIError" "URI malformed"

/-- `parsePoomRef` (src/index.ts lines 180-197) on character lists. -/
def parsePoomRefL (value : Option (List Char)) : Except JsValue (Option (List Char)) :=
  match value with
  | none => .ok none
  | some v =>
    if v = [] then .ok none
    else
      let t := trimCharsL v
      if t = [] then .ok none
      else
        match poomCapture t with
        | some g =>
          match decodeURIComponentL g with
          | some d => .ok (some d)
          | none => .error uriError
        | none =>
          match queryCapture t with
          | some q =>
            match decodeURIComponentL q with
            | some d => .ok (some d)
            | none => .error uriError
          | none => .ok (some t)

/-- `toPoomUrl` (src/index.ts lines 176-178). -/
def toPoomUrl (runId : String) : String :=
  ⟨poomUrlHead ++ encodeURIComponentL runId.data⟩

/-- `parsePoomRef` at `String` level. -/
def parsePoomRef (value : Option String) : Except JsValue (Option String) :=
  (parsePoomRefL (value.map String.data)).map (fun o => o.map String.mk)

/-- One entry of the upstream `/runs` list (`RunInfoSchema`, lines 44-50). -/
structure RunInfo where
  run_id : String
  manifest_path : String
  created_at : String
  segment_count : Nat
  duration_sec : Int
  deriving DecidableEq, Repr

/-- Last step of `resolveRunId` (lines 339-348): consult the fetched run
list; an empty list raises `RUN_NOT_FOUND`, otherwise the first run wins. -/
def resolveRunIdFromList (runsResult : Except JsValue (List RunInfo)) : Except JsValue String :=
  match runsResult with
  | .error e => .error e
  | .ok [] => .error (.errObj "RUN_NOT_FOUND" "No tutorial runs are currently available" false)
  | .ok (r :: _) => .ok r.run_id

/-- Middle step of `resolveRunId` (lines 335-337): a truthy
`ADK_DEFAULT_RUN_ID` wins before the run list is consulted. -/
def resolveRunIdDefault (defaultRunId : Option String)
    (runsResult : Except JsValue (List RunInfo)) : Except JsValue String :=
  match defaultRunId with
  | some d => if d ≠ "" then .ok d else resolveRunIdFromList runsResult
  | none => resolveRunIdFromList runsResult

/-- `resolveRunId` (src/index.ts lines 330-349): a truthy explicit input
wins, then the environment default, then the fetched run list. -/
def resolveRunId (input : Option String) (defaultRunId : Option String)
    (runsResult : Except JsValue (List RunInfo)) : Except JsValue String :=
  match input with
  | some s => if s ≠ "" then .ok s else resolveRunIdDefault defaultRunId runsResult
  | none => resolveRunIdDefault defaultRunId runsResult

/-- The argument `run_id || parsePoomRef(poom_ref)` of line 485, with
JavaScript short-circuiting: a truthy `run_id` suppresses the reference
parse (and any `URIError` it would throw). -/
def runIdOrRef (run_id poom_ref : Option String) : Except JsValue (Option String) :=
  match run_id with
  | some s => if s ≠ "" then .ok (some s) else parsePoomRef poom_ref
  | none => parsePoomRef poom_ref

/-- The run-identifier resolution performed by `open_run_player`
(line 485): `resolveRunId(run_id || parsePoomRef(poom_ref))`. -/
def openRunResolve (run_id poom_ref : Option String) (defaultRunId : Option String)
    (runsResult : Except JsValue (List RunInfo)) : Except JsValue String :=
  match runIdOrRef run_id poom_ref with
  | .error e => .error e
  | .ok input => resolveRunId input defaultRunId runsResult

/-- One chapter of the master video (`ChapterSchema`, lines 95-100). -/
structure ChapterInfo where
  segment_id : String
  name : String
  start_s : Int
  end_s : Int
  deriving DecidableEq, Repr

/-- One segment of a run (`SegmentSchema`, lines 102-115, the fields the
player reads). -/
structure SegmentInfo where
  segment_id : String
  name : String
  dub_script : String
  original_transcript_summary : String
  visual_description : String
  video_stream_url : String
  deriving DecidableEq, Repr

/-- The `master` object of a manifest (lines 122-129); `none` models a
`null`, absent, or (for truthiness purposes) empty URL. -/
structure MasterInfo where
  available : Bool
  video_stream_url : Option String
  chapters_track_url : Option String
  duration_s : Int
  chapters : List ChapterInfo
  deriving DecidableEq, Repr

/-- A parsed run manifest (`ManifestSchema`, lines 117-140). -/
structure Manifest where
  run_id : String
  manifest_path : String
  updated_at : Int
  segments : List SegmentInfo
  master : MasterInfo
  deriving DecidableEq, Repr

/-- The widget props assembled by `open_run_player` (lines 515-523). -/
structure PlayerProps where
  run_id : String
  master_video_url : String
  chapters_track_url : Option String
  chapters : List ChapterInfo
  default_chapter : Nat
  quiz_mode : String
  deriving DecidableEq, Repr

/-- JavaScript truthiness of an optional string (`undefined`, `null` and
the empty string are falsy). -/
def truthyStr : Option String → Bool
  | some s => s ≠ ""
  | none => false

/-- The playable-master guard and player-payload assembly of
`open_run_player` (src/index.ts lines 488-523). -/
def openRunPlayerCore (resolvedRunId : String) (manifest : Manifest) :
    Except JsValue PlayerProps :=
  if !manifest.master.available || !truthyStr manifest.master.video_stream_url then
    .error (.errObj "MANIFEST_INVALID"
      ("Run " ++ resolvedRunId ++ " does not have a playable master video") false)
  else
    .ok { run_id := resolvedRunId,
          master_video_url := manifest.master.video_stream_url.getD "",
          chapters_track_url := manifest.master.chapters_track_url,
          chapters := manifest.master.chapters,
          default_chapter := 0,
          quiz_mode := "lite" }

/-- `MANIFEST_CACHE_TTL_MS` (src/index.ts line 21). -/
def MANIFEST_CACHE_TTL_MS : Nat := 30000

/-- One entry of `manifestCache` (line 173). -/
structure CacheEntry where
  expiresAt : Nat
  payload : Manifest
  deriving DecidableEq, Repr

/-- Lookup in an association list with `Map.get` semantics. -/
def lookupA {α : Type} (l : List (String × α)) (k : String) : Option α :=
  match l with
  | [] => none
  | (k1, v) :: rest => if k1 = k then some v else lookupA rest k

/-- `Map.set`: the new binding shadows any old one. -/
def insertA {α : Type} (l : List (String × α)) (k : String) (v : α) : List (String × α) :=
  (k, v) :: l

/-- `Map.delete`: all bindings for the key disappear. -/
def removeA {α : Type} (l : List (String × α)) (k : String) : List (String × α) :=
  l.filter (fun p => p.1 ≠ k)

/-- The process-wide mutable state around `fetchManifest`: the manifest
cache, the in-flight registry (keyed by run id, holding an identifier of
the pending fetch), a fresh-identifier counter, and the ordered log of
upstream manifest fetches that have been issued. -/
structure CacheState where
  cache : List (String × CacheEntry)
  inflight : List (String × Nat)
  nextFetchId : Nat
  fetchLog : List (String × Nat)
  deriving DecidableEq, Repr

/-- What one call to `fetchManifest` does in its synchronous section:
return a cached value, join the pending fetch, or start a new fetch. -/
inductive StartOutcome where
  | cachedHit (payload : Manifest)
  | joined (fetchId : Nat)
  | startedFetch (fetchId : Nat)
  deriving DecidableEq, Repr

/-- The cache-miss path of `fetchManifest` (src/index.ts lines 310-322):
join a registered in-flight fetch, or issue a new upstream fetch and
register it. -/
def startMiss (st : CacheState) (runId : String) : CacheState × StartOutcome :=
  match lookupA st.inflight runId with
  | some fid => (st, .joined fid)
  | none =>
    ({ st with
        inflight := insertA st.inflight runId st.nextFetchId,
        nextFetchId := st.nextFetchId + 1,
        fetchLog := st.fetchLog ++ [(runId, st.nextFetchId)] },
      .startedFetch st.nextFetchId)

/-- The synchronous section of `fetchManifest (runId)` at time `now`
(src/index.ts lines 303-322): the whole check-cache / check-in-flight /
register sequence runs without a suspension point, so it is one atomic
step of the cooperative interleaving. -/
def startCall (st : CacheState) (runId : String) (now : Nat) : CacheState × StartOutcome :=
  match lookupA st.cache runId with
  | some e => if now < e.expiresAt then (st, .cachedHit e.payload) else startMiss st runId
  | none => startMiss st runId

/-- Settlement of the fetch task for `runId` that started at `startNow`
(src/index.ts lines 315-327): on success the parsed value is stored with
expiry `startNow + MANIFEST_CACHE_TTL_MS`; on any outcome the in-flight
registration is removed (the `finally` block). -/
def settleFetch (st : CacheState) (runId : String) (startNow : Nat)
    (result : Except JsValue Manifest) : CacheState :=
  let st1 :=
    match result with
    | .ok m => { st with cache := insertA st.cache runId ⟨startNow + MANIFEST_CACHE_TTL_MS, m⟩ }
    | .error _ => st
  { st1 with inflight := removeA st1.inflight runId }

/-- `N` callers for the same `runId` run their synchronous sections one
after another (cooperative single-threaded interleaving), at the given
times, before the fetch settles; returns the final state and each
caller's outcome in order. -/
def runStarts (st : CacheState) (runId : String) : List Nat → CacheState × List StartOutcome
  | [] => (st, [])
  | t :: ts =>
    let p := startCall st runId t
    let q := runStarts p.1 runId ts
    (q.1, p.2 :: q.2)

/-- The manifest value a caller ends up with, given a map from fetch
identifiers to the corresponding settlement results: a cache hit resolves
to the cached payload, and a caller awaiting a fetch (whether it started
it or joined it) resolves to that fetch's result. -/
def deliver (results : Nat → Except JsValue Manifest) : StartOutcome → Except JsValue Manifest
  | .cachedHit m => .ok m
  | .joined fid => results fid
  | .startedFetch fid => results fid

/-- Job status enum (`PipelineJobSchema`, line 58). -/
inductive JobStatus where
  | queued
  | running
  | completed
  | failed
  deriving DecidableEq, Repr

/-- The fields of a polled job that `pollJob` reads
(src/resources/tutorial-player/widget.tsx lines 46-54). -/
structure PollJobView where
  job_id : String
  status : JobStatus
  stage : String
  progress_pct : Int
  message : String
  run_id : Option String
  errorMessage : Option String
  deriving DecidableEq, Repr

/-- What one `get_poom_status` poll observes: the call rejects, or it
succeeds and the payload contains a job snapshot or not. -/
inductive PollObservation where
  | failure (errText : String)
  | success (job : Option PollJobView)
  deriving DecidableEq, Repr

/-- The scheduling decision `pollJob` takes after one poll: stop and open
the run, stop with a surfaced message, or arm the next tick. -/
inductive PollAction where
  | stopAndOpenRun (runId : String)
  | stopWithMessage (text : String)
  | reschedule (delayMs : Nat)
  deriving DecidableEq, Repr

/-- `job.error?.message || job.message || "Unknown failure"` (widget.tsx
line 261), with falsy empty strings. -/
def pollFailedDetail (job : PollJobView) : String :=
  match job.errorMessage with
  | some m =>
    if m ≠ "" then m else if job.message ≠ "" then job.message else "Unknown failure"
  | none => if job.message ≠ "" then job.message else "Unknown failure"

/-- The control decision of one `pollJob` tick
(src/resources/tutorial-player/widget.tsx lines 235-276): a rejected poll
stops with a surfaced failure; a completed job stops and opens the run
when a truthy run id is present, else surfaces the manual-refresh
message; a failed job stops with the error detail; everything else
(queued, running, or a payload with no job) reschedules after 3.5s. -/
def pollStep (obs : PollObservation) : PollAction :=
  match obs with
  | .failure e => .stopWithMessage ("Polling failed: " ++ e)
  | .success none => .reschedule 3500
  | .success (some job) =>
    match job.status with
    | .completed =>
      if truthyStr job.run_id then .stopAndOpenRun (job.run_id.getD "")
      else .stopWithMessage "POOM completed but run_id is missing. Refresh and open manually."
    | .failed => .stopWithMessage ("POOM failed: " ++ pollFailedDetail job)
    | _ => .reschedule 3500

/-- Does a poll action keep the polling loop alive? -/
def PollAction.continues : PollAction → Bool
  | .reschedule _ => true
  | _ => false

/-- The token sequence `encChar c` turns into after the first decoding
stage: the character itself when unreserved, else its UTF-8 bytes. -/
def encTokens (c : Char) : List PctToken :=
  if isUriUnreserved c then [.chr c] else (utf8Bytes c.toNat).map .byte

/-- A concrete manifest used to instantiate universally quantified
statements. -/
def sampleManifest : Manifest :=
  ⟨"r", "p", 0, [], ⟨true, some "u", none, 0, []⟩⟩

/-!
## Theorems
-/

theorem toNat_CharOfNat (n : Nat) (h : n.isValidChar) : (Char.ofNat n).toNat = n := by
  simp [Char.ofNat, h, Char.ofNatAux, Char.toNat, UInt32.toNat, BitVec.toNat_ofNatLt]

theorem hexVal_hexDigitChar (k : Nat) (h : k < 16) : hexVal (hexDigitChar k) = some k := by
  interval_cases k <;> rfl

theorem lookupA_insertA_self {α : Type} (l : List (String × α)) (k : String) (v : α) :
    lookupA (insertA l k v) k = some v := by
  simp [insertA, lookupA]

theorem lookupA_removeA_self {α : Type} (l : List (String × α)) (k : String) :
    lookupA (removeA l k) k = none := by
  induction l with
  | nil => rfl
  | cons p rest ih =>
    rcases p with ⟨k1, v⟩
    by_cases h : k1 = k
    · simpa [removeA, List.filter_cons, h] using ih
    · simpa [removeA, List.filter_cons, h, lookupA] using ih

theorem startCall_miss_joined (st : CacheState) (rid : String) (t : Nat) (fid : Nat)
    (hc : ∀ e, lookupA st.cache rid = some e → e.expiresAt ≤ t)
    (hf : lookupA st.inflight rid = some fid) :
    startCall st rid t = (st, .joined fid) := by
  cases hcc : lookupA st.cache rid with
  | none => simp [startCall, hcc, startMiss, hf]
  | some e =>
    have he := hc e hcc
    simp only [startCall, hcc]
    rw [if_neg (by omega)]
    simp [startMiss, hf]

theorem startCall_miss_fresh (st : CacheState) (rid : String) (t : Nat)
    (hc : ∀ e, lookupA st.cache rid = some e → e.expiresAt ≤ t)
    (hf : lookupA st.inflight rid = none) :
    startCall st rid t =
      ({ st with
          inflight := insertA st.inflight rid st.nextFetchId,
          nextFetchId := st.nextFetchId + 1,
          fetchLog := st.fetchLog ++ [(rid, st.nextFetchId)] },
        .startedFetch st.nextFetchId) := by
  cases hcc : lookupA st.cache rid with
  | none => simp [startCall, hcc, startMiss, hf]
  | some e =>
    have he := hc e hcc
    simp only [startCall, hcc]
    rw [if_neg (by omega)]
    simp [startMiss, hf]

theorem runStarts_all_joined (st : CacheState) (rid : String) (ts : List Nat) (fid : Nat)
    (hc : ∀ e, lookupA st.cache rid = some e → ∀ t ∈ ts, e.expiresAt ≤ t)
    (hf : lookupA st.inflight rid = some fid) :
    runStarts st rid ts = (st, ts.map fun _ => .joined fid) := by
  induction ts with
  | nil => rfl
  | cons t ts ih =>
    have h1 := startCall_miss_joined st rid t fid
      (fun e he => hc e he t (List.mem_cons_self t ts)) hf
    have h2 := ih (fun e he t2 ht2 => hc e he t2 (List.mem_cons_of_mem t ht2))
    simp [runStarts, h1, h2]

theorem settleFetch_inflight_none (st : CacheState) (rid : String) (startNow : Nat)
    (result : Except JsValue Manifest) :
    lookupA (settleFetch st rid startNow result).inflight rid = none := by
  cases result <;> simp [settleFetch, lookupA_removeA_self]

/-- Claim C1: for every run identifier, at most one upstream manifest fetch
is outstanding at any time: if `N` callers request the manifest for the
same `runId` concurrently (their synchronous sections interleaved in any
order, each at a time when no live cached value exists, with no fetch in
flight initially), exactly one upstream fetch is issued (the fetch log
grows by exactly one entry), the first caller starts it and all later
callers join it, every caller resolves to that single fetch's result, and
the in-flight registry entry for the key is removed when the fetch
settles, whether it succeeds or fails. -/
theorem manifest_single_flight (st : CacheState) (runId : String) (times : List Nat)
    (hcache : ∀ e, lookupA st.cache runId = some e → ∀ t ∈ times, e.expiresAt ≤ t)
    (hinflight : lookupA st.inflight runId = none)
    (hne : times ≠ []) :
    (runStarts st runId times).1.fetchLog = st.fetchLog ++ [(runId, st.nextFetchId)]
    ∧ (runStarts st runId times).2 =
        .startedFetch st.nextFetchId :: (times.tail.map fun _ => .joined st.nextFetchId)
    ∧ (∀ results : Nat → Except JsValue Manifest,
        (runStarts st runId times).2.map (deliver results) =
          List.replicate times.length (results st.nextFetchId))
    ∧ (∀ startNow result,
        lookupA (settleFetch (runStarts st runId times).1 runId startNow result).inflight runId
          = none) := by
  cases times with
  | nil => exact absurd rfl hne
  | cons t ts =>
    have h1 := startCall_miss_fresh st runId t
      (fun e he => hcache e he t (List.mem_cons_self t ts)) hinflight
    have h2 := runStarts_all_joined
      ({ st with
          inflight := insertA st.inflight runId st.nextFetchId,
          nextFetchId := st.nextFetchId + 1,
          fetchLog := st.fetchLog ++ [(runId, st.nextFetchId)] })
      runId ts st.nextFetchId
      (fun e he t2 ht2 => hcache e he t2 (List.mem_cons_of_mem t ht2))
      (lookupA_insertA_self st.inflight runId st.nextFetchId)
    refine ⟨?_, ?_, ?_, ?_⟩
    · simp [runStarts, h1, h2]
    · simp [runStarts, h1, h2]
    · intro results
      simp [runStarts, h1, h2, deliver, List.map_map, Function.comp,
        List.replicate_succ, List.map_const']
    · intro startNow result
      exact settleFetch_inflight_none _ _ _ _

/-- Witness for C1: three concurrent callers from a clean state issue one
fetch, get outcomes start/join/join, all three resolve to the single
fetch's result, and settling clears the registry. -/
theorem manifest_single_flight_witness :
    (runStarts ⟨[], [], 0, []⟩ "r" [1, 2, 3]).1.fetchLog = [("r", 0)]
    ∧ (runStarts ⟨[], [], 0, []⟩ "r" [1, 2, 3]).2 =
        [.startedFetch 0, .joined 0, .joined 0]
    ∧ (∀ results : Nat → Except JsValue Manifest,
        (runStarts ⟨[], [], 0, []⟩ "r" [1, 2, 3]).2.map (deliver results) =
          List.replicate 3 (results 0))
    ∧ lookupA (settleFetch (runStarts ⟨[], [], 0, []⟩ "r" [1, 2, 3]).1 "r" 5
        (.error .other)).inflight "r" = none := by
  have h := manifest_single_flight ⟨[], [], 0, []⟩ "r" [1, 2, 3]
    (by intro e he; simp [lookupA] at he) rfl (by simp)
  refine ⟨by simpa using h.1, by simpa using h.2.1, fun results => by simpa using h.2.2.1 results,
    h.2.2.2 5 (.error .other)⟩

/-- Claim C4: a live (unexpired) cached manifest is returned immediately
with the state unchanged (zero upstream calls); a successful settlement
stores the payload with expiry `startNow + MANIFEST_CACHE_TTL_MS` where
the TTL constant is 30 s; while `now` is before the stored expiry every
call is a cache hit that issues no fetch; and once `now` has reached the
expiry, the next call (with nothing in flight) issues exactly one new
upstream fetch. -/
theorem manifest_cache_ttl :
    (∀ (st : CacheState) (rid : String) (now : Nat) (e : CacheEntry),
        lookupA st.cache rid = some e → now < e.expiresAt →
        startCall st rid now = (st, .cachedHit e.payload))
    ∧ (∀ (st : CacheState) (rid : String) (startNow : Nat) (m : Manifest),
        lookupA (settleFetch st rid startNow (.ok m)).cache rid =
          some ⟨startNow + MANIFEST_CACHE_TTL_MS, m⟩)
    ∧ MANIFEST_CACHE_TTL_MS = 30000
    ∧ (∀ (st : CacheState) (rid : String) (now : Nat) (e : CacheEntry),
        lookupA st.cache rid = some e → e.expiresAt ≤ now →
        lookupA st.inflight rid = none →
        startCall st rid now =
          ({ st with
              inflight := insertA st.inflight rid st.nextFetchId,
              nextFetchId := st.nextFetchId + 1,
              fetchLog := st.fetchLog ++ [(rid, st.nextFetchId)] },
            .startedFetch st.nextFetchId)) := by
  refine ⟨?_, ?_, rfl, ?_⟩
  · intro st rid now e he hlive
    simp [startCall, he, hlive]
  · intro st rid startNow m
    simp [settleFetch, lookupA_insertA_self]
  · intro st rid now e he hexp hf
    exact startCall_miss_fresh st rid now (fun e2 he2 => by rw [he] at he2; cases he2; exact hexp) hf

/-- Witness for C4, at a concrete one-entry cache: a hit before expiry, the
stored expiry after a settlement at time 40, and a fresh fetch at expiry. -/
theorem manifest_cache_ttl_witness :
    startCall ⟨[("r", ⟨100, sampleManifest⟩)], [], 5, []⟩ "r" 99
      = (⟨[("r", ⟨100, sampleManifest⟩)], [], 5, []⟩, .cachedHit sampleManifest)
    ∧ lookupA (settleFetch ⟨[], [], 0, []⟩ "r" 40 (.ok sampleManifest)).cache "r" =
        some ⟨40 + MANIFEST_CACHE_TTL_MS, sampleManifest⟩
    ∧ (startCall ⟨[("r", ⟨100, sampleManifest⟩)], [], 5, []⟩ "r" 100).2 = .startedFetch 5 := by
  refine ⟨manifest_cache_ttl.1 ⟨[("r", ⟨100, sampleManifest⟩)], [], 5, []⟩ "r" 99
      ⟨100, sampleManifest⟩ rfl (by norm_num),
    manifest_cache_ttl.2.1 ⟨[], [], 0, []⟩ "r" 40 sampleManifest, ?_⟩
  rw [manifest_cache_ttl.2.2.2 ⟨[("r", ⟨100, sampleManifest⟩)], [], 5, []⟩ "r" 100
    ⟨100, sampleManifest⟩ rfl (by norm_num) rfl]

/-- Claim C7: for every run whose fetched manifest has
`master.available = false`, the open-run-player guard fails with a
non-retryable `MANIFEST_INVALID` error and never returns a (partial)
player payload. -/
theorem open_run_player_manifest_invalid (rid : String) (m : Manifest)
    (h : m.master.available = false) :
    openRunPlayerCore rid m =
      .error (.errObj "MANIFEST_INVALID"
        ("Run " ++ rid ++ " does not have a playable master video") false)
    ∧ ∀ p : PlayerProps, openRunPlayerCore rid m ≠ .ok p := by
  refine ⟨?_, ?_⟩
  · simp [openRunPlayerCore, h]
  · intro p
    simp [openRunPlayerCore, h]

/-- Witness for C7: a manifest with an unavailable master (even with a
URL present) is rejected. -/
theorem open_run_player_manifest_invalid_witness :
    openRunPlayerCore "r1" ⟨"r1", "p", 0, [], ⟨false, some "u", none, 0, []⟩⟩ =
      .error (.errObj "MANIFEST_INVALID"
        ("Run " ++ "r1" ++ " does not have a playable master video") false) :=
  (open_run_player_manifest_invalid "r1"
    ⟨"r1", "p", 0, [], ⟨false, some "u", none, 0, []⟩⟩ rfl).1

/-- Claim C8: the polling loop continues exactly when a successful poll
observes a non-terminal (or absent) job; a rejected poll stops and
surfaces the failure; a completed job with a truthy run id stops and
triggers the open-run follow-on; a completed job without one stops with
the manual-refresh message; a failed job stops with the backend error
detail when present and non-empty, or the job message, or the generic
failure text. -/
theorem pollStep_characterization :
    (∀ obs : PollObservation, (pollStep obs).continues = true ↔
        (obs = .success none ∨
          ∃ job, obs = .success (some job) ∧ job.status ≠ .completed ∧ job.status ≠ .failed))
    ∧ (∀ e, pollStep (.failure e) = .stopWithMessage ("Polling failed: " ++ e))
    ∧ (∀ job : PollJobView, job.status = .completed → truthyStr job.run_id = true →
        pollStep (.success (some job)) = .stopAndOpenRun (job.run_id.getD ""))
    ∧ (∀ job : PollJobView, job.status = .completed → truthyStr job.run_id = false →
        pollStep (.success (some job)) =
          .stopWithMessage "POOM completed but run_id is missing. Refresh and open manually.")
    ∧ (∀ job : PollJobView, job.status = .failed →
        pollStep (.success (some job)) =
          .stopWithMessage ("POOM failed: " ++ pollFailedDetail job))
    ∧ (∀ job : PollJobView, job.status ≠ .completed → job.status ≠ .failed →
        pollStep (.success (some job)) = .reschedule 3500)
    ∧ (∀ job m, job.errorMessage = some m → m ≠ "" → pollFailedDetail job = m)
    ∧ (∀ job : PollJobView, (job.errorMessage = none ∨ job.errorMessage = some "") →
        job.message = "" → pollFailedDetail job = "Unknown failure") := by
  refine ⟨?_, fun e => rfl, ?_, ?_, ?_, ?_, ?_, ?_⟩
  · intro obs
    match obs with
    | .failure e => simp [pollStep, PollAction.continues]
    | .success none => simp [pollStep, PollAction.continues]
    | .success (some job) =>
      cases hst : job.status with
      | completed =>
        cases htr : truthyStr job.run_id <;>
          simp [pollStep, hst, htr, PollAction.continues]
      | failed => simp [pollStep, hst, PollAction.continues]
      | queued => simp [pollStep, hst, PollAction.continues]
      | running => simp [pollStep, hst, PollAction.continues]
  · intro job h htr
    simp [pollStep, h, htr]
  · intro job h htr
    simp [pollStep, h, htr]
  · intro job h
    simp [pollStep, h]
  · intro job h1 h2
    cases hst : job.status <;> simp_all [pollStep]
  · intro job m hm hne
    simp [pollFailedDetail, hm, hne]
  · intro job hm hmsg
    rcases hm with hm | hm <;> simp [pollFailedDetail, hm, hmsg]

/-- Witness for C8: a completed job with run id opens the run; a failed
job surfaces the backend detail; a running job reschedules; a rejected
poll stops with the failure surfaced. -/
theorem pollStep_characterization_witness :
    pollStep (.success (some ⟨"j1", .completed, "done", 100, "", some "r1", none⟩)) =
      .stopAndOpenRun "r1"
    ∧ pollStep (.success (some ⟨"j1", .failed, "encode", 50, "msg", none, some "decode error"⟩)) =
        .stopWithMessage ("POOM failed: " ++ "decode error")
    ∧ pollStep (.success (some ⟨"j1", .running, "encode", 50, "", none, none⟩)) =
        .reschedule 3500
    ∧ (pollStep (.failure "boom")).continues = false := by
  refine ⟨?_, ?_, ?_, ?_⟩
  · exact pollStep_characterization.2.2.1 ⟨"j1", .completed, "done", 100, "", some "r1", none⟩
      rfl rfl
  · have h := pollStep_characterization.2.2.2.2.1
      ⟨"j1", .failed, "encode", 50, "msg", none, some "decode error"⟩ rfl
    have hd := pollStep_characterization.2.2.2.2.2.2.1
      ⟨"j1", .failed, "encode", 50, "msg", none, some "decode error"⟩ "decode error" rfl
      (by decide)
    rw [h, hd]
  · exact pollStep_characterization.2.2.2.2.2.1 ⟨"j1", .running, "encode", 50, "", none, none⟩
      (by decide) (by decide)
  · have h := (pollStep_characterization.1 (.failure "boom"))
    revert h
    cases hpc : (pollStep (.failure "boom")).continues
    · intro _; rfl
    · intro h
      rcases h.mp rfl with h2 | ⟨job, h2, _⟩ <;> exact absurd h2 (by simp)

/-- Claim C9: every tool operation's observable outcome at the dispatcher
boundary is either a structured success payload or a structured error
envelope built from the uniform `ToolError` produced by `normalizeError`;
no raw thrown value crosses the boundary, and `normalizeError` maps every
possible thrown value (ToolError-shaped objects verbatim, abort errors,
other errors, non-errors) to a `ToolError`. -/
theorem tool_boundary_structured (baseUrl : String) :
    (∀ outcome : Except JsValue Json,
      (∃ a, outcome = .ok a ∧ dispatchTool baseUrl outcome = .success a)
      ∨ (∃ e, outcome = .error e ∧
          dispatchTool baseUrl outcome =
            .errorEnvelope
              ((normalizeError baseUrl e).code ++ ": " ++ (normalizeError baseUrl e).message)))
    ∧ (∀ c m r, normalizeError baseUrl (.errObj c m r) = ⟨c, m, r⟩)
    ∧ (∀ msg, normalizeError baseUrl (.jsError "AbortError" msg) =
        ⟨"UPSTREAM_TIMEOUT",
          "ADK runtime timeout after " ++ toString ADK_API_TIMEOUT_MS ++ "ms (" ++ baseUrl ++ ")",
          true⟩)
    ∧ (∀ name msg, name ≠ "AbortError" → normalizeError baseUrl (.jsError name msg) =
        ⟨"UPSTREAM_TIMEOUT", msg ++ " (" ++ baseUrl ++ ")", true⟩)
    ∧ normalizeError baseUrl .other =
        ⟨"UPSTREAM_TIMEOUT", "Unknown upstream failure (" ++ baseUrl ++ ")", true⟩ := by
  refine ⟨?_, fun c m r => rfl, fun msg => by simp [normalizeError], ?_, rfl⟩
  · intro outcome
    match outcome with
    | .ok a => exact Or.inl ⟨a, rfl, rfl⟩
    | .error e => exact Or.inr ⟨e, rfl, rfl⟩
  · intro name msg h
    simp [normalizeError, h]

/-- Witness for C9: a raw network error thrown against the default base
URL surfaces as a structured `UPSTREAM_TIMEOUT` envelope. -/
theorem tool_boundary_structured_witness :
    dispatchTool "https://fixed-control-van-vocabulary.trycloudflare.com"
        (Except.error (JsValue.jsError "TypeError" "fetch failed") : Except JsValue Json) =
      .errorEnvelope
        ("UPSTREAM_TIMEOUT" ++ ": " ++
          ("fetch failed" ++ " (" ++ "https://fixed-control-van-vocabulary.trycloudflare.com" ++ ")")) := by
  have h := (tool_boundary_structured "https://fixed-control-van-vocabulary.trycloudflare.com").1
    (.error (.jsError "TypeError" "fetch failed"))
  have hn := (tool_boundary_structured
    "https://fixed-control-van-vocabulary.trycloudflare.com").2.2.2.1 "TypeError" "fetch failed"
    (by decide)
  rcases h with ⟨a, ha, _⟩ | ⟨e, he, hd⟩
  · exact absurd ha (by simp)
  · cases he
    rw [hd, hn]

/-- Counterexample to claim C2 as stated: after base 0 exhausts its
same-base 502 retry, the code fails over carrying `attempt = 1` instead of
restarting from attempt 0, so with `restartProbeBehavior` (base 1 would
answer 200 on a fresh attempt 0) the source's `fetchJson` propagates an
error while the spec's restart-from-0 policy would succeed with base 1's
response. -/
theorem fetchJson_restart_counterexample :
    fetchJson restartProbeBehavior 2 0 0 =
      .error (.errObj "UPSTREAM_TIMEOUT" "ADK runtime request failed (502)" true)
    ∧ fetchJsonSpecRestart restartProbeBehavior 2 0 0 = .ok (.mk none 7)
    ∧ restartProbeBehavior 1 0 = .response 200 (some (.mk none 7)) := by
  refine ⟨?_, ?_, rfl⟩
  · simp [fetchJson, restartProbeBehavior, respOk, classifyFailure, emptyObj, Json.errorField]
    rfl
  · simp [fetchJsonSpecRestart, restartProbeBehavior, respOk, classifyFailure, emptyObj,
      Json.errorField]

/-- Claim C2 (amended): on a transport-level failure, or on a non-ok
response once the same-base 502/503 retry is no longer available, the
client advances to the next candidate base carrying the *current* attempt
counter (not resetting it to 0); once all bases are exhausted the last
failure is propagated; and in the 3-base scenario where base 0 always
raises a transport error and base 1 answers 200, the call succeeds with
base 1's response and the third base is never contacted (the result does
not depend on the behavior at any other index). -/
theorem fetchJson_failover_policy :
    (∀ behavior numBases attempt idx e, behavior idx attempt = .thrown e →
        idx + 1 < numBases →
        fetchJson behavior numBases attempt idx = fetchJson behavior numBases attempt (idx + 1))
    ∧ (∀ behavior numBases attempt idx s body, behavior idx attempt = .response s body →
        ¬ ((s = 502 ∨ s = 503) ∧ attempt < 1) → respOk s = false → idx + 1 < numBases →
        fetchJson behavior numBases attempt idx = fetchJson behavior numBases attempt (idx + 1))
    ∧ (∀ behavior numBases attempt idx e, behavior idx attempt = .thrown e →
        ¬ (idx + 1 < numBases) →
        fetchJson behavior numBases attempt idx = .error e)
    ∧ (∀ behavior e j, (∀ a, behavior 0 a = .thrown e) →
        behavior 1 0 = .response 200 (some j) →
        fetchJson behavior 3 0 0 = .ok j) := by
  refine ⟨?_, ?_, ?_, ?_⟩
  · intro behavior numBases attempt idx e h hn
    rw [fetchJson.eq_def, h]
    simp [hn]
  · intro behavior numBases attempt idx s body h hretry hok hn
    rw [fetchJson.eq_def, h]
    simp only []
    rw [dif_neg hretry]
    simp [hok, hn]
  · intro behavior numBases attempt idx e h hn
    rw [fetchJson.eq_def, h]
    simp [hn]
  · intro behavior e j h0 h1
    rw [fetchJson.eq_def, h0 0]
    norm_num
    rw [fetchJson.eq_def, h1]
    norm_num [respOk]

/-- Witness for the amended C2: with base 0 always raising a transport
error and base 1 answering 200, the call returns base 1's payload. -/
theorem fetchJson_failover_policy_witness :
    fetchJson
        (fun idx _ => if idx = 0 then .thrown .other else .response 200 (some (.mk none 3)))
        3 0 0 = .ok (.mk none 3) :=
  fetchJson_failover_policy.2.2.2
    (fun idx _ => if idx = 0 then .thrown .other else .response 200 (some (.mk none 3)))
    .other (.mk none 3) (fun _ => rfl) rfl

/-- Claim C3: a 502 or 503 response on attempt 0 is retried once against
the same base (the call becomes the same call at attempt 1); a second
consecutive 502/503 on that base is not retried again there — the
resulting thrown error triggers failover to the next candidate base when
one remains, and is propagated as the classified error otherwise. -/
theorem fetchJson_502_retry :
    (∀ behavior numBases idx s body, (s = 502 ∨ s = 503) →
        behavior idx 0 = .response s body →
        fetchJson behavior numBases 0 idx = fetchJson behavior numBases 1 idx)
    ∧ (∀ behavior numBases idx s body, (s = 502 ∨ s = 503) →
        behavior idx 1 = .response s body → idx + 1 < numBases →
        fetchJson behavior numBases 1 idx = fetchJson behavior numBases 1 (idx + 1))
    ∧ (∀ behavior numBases idx s body, (s = 502 ∨ s = 503) →
        behavior idx 1 = .response s body → ¬ (idx + 1 < numBases) →
        fetchJson behavior numBases 1 idx = .error (classifyFailure s (body.getD emptyObj))) := by
  refine ⟨?_, ?_, ?_⟩
  · intro behavior numBases idx s body hs h
    rw [fetchJson.eq_def, h]
    simp only []
    rw [dif_pos ⟨hs, by omega⟩]
  · intro behavior numBases idx s body hs h hn
    rw [fetchJson.eq_def, h]
    simp only []
    rw [dif_neg (fun hcon => by omega)]
    have hok : respOk s = false := by rcases hs with h5 | h5 <;> subst h5 <;> rfl
    simp [hok, hn]
  · intro behavior numBases idx s body hs h hn
    rw [fetchJson.eq_def, h]
    simp only []
    rw [dif_neg (fun hcon => by omega)]
    have hok : respOk s = false := by rcases hs with h5 | h5 <;> subst h5 <;> rfl
    simp [hok, hn]

/-- Witness for C3: a base that always answers 502 with a single candidate
base: the first call becomes the attempt-1 call (the single same-base
retry), which then propagates the classified 502 error; with a second
base available, the attempt-1 call fails over instead. -/
theorem fetchJson_502_retry_witness :
    fetchJson (fun _ _ => .response 502 none) 1 0 0 =
      fetchJson (fun _ _ => .response 502 none) 1 1 0
    ∧ fetchJson (fun _ _ => .response 502 none) 1 1 0 =
        .error (classifyFailure 502 emptyObj)
    ∧ fetchJson (fun _ _ => .response 502 none) 2 1 0 =
        fetchJson (fun _ _ => .response 502 none) 2 1 1 := by
  refine ⟨?_, ?_, ?_⟩
  · exact fetchJson_502_retry.1 (fun _ _ => .response 502 none) 1 0 502 none (Or.inl rfl) rfl
  · exact fetchJson_502_retry.2.2 (fun _ _ => .response 502 none) 1 0 502 none (Or.inl rfl) rfl
      (by omega)
  · exact fetchJson_502_retry.2.1 (fun _ _ => .response 502 none) 2 0 502 none (Or.inl rfl) rfl
      (by omega)

/-- Claim C5: a non-ok response whose body embeds an error payload with
truthy code and message propagates it verbatim; otherwise 404 synthesizes
a non-retryable `RUN_NOT_FOUND` and any other non-2xx status synthesizes
`UPSTREAM_TIMEOUT`, retryable exactly when the status is ≥ 500; the
classified error is what `fetchJson` throws once no base remains; and a
2xx response with a malformed body resolves to the empty object instead
of throwing. -/
theorem fetchJson_response_classification :
    (∀ (s : Nat) (data : Json) (u : ToolError), data.errorField = some u →
        u.code ≠ "" → u.message ≠ "" →
        classifyFailure s data = .errObj u.code u.message u.retryable)
    ∧ (∀ data : Json, data.errorField = none →
        classifyFailure 404 data =
          .errObj "RUN_NOT_FOUND" ("ADK runtime request failed (" ++ toString 404 ++ ")") false)
    ∧ (∀ (s : Nat) (data : Json), data.errorField = none → s ≠ 404 →
        classifyFailure s data =
          .errObj "UPSTREAM_TIMEOUT" ("ADK runtime request failed (" ++ toString s ++ ")")
            (decide (500 ≤ s)))
    ∧ (∀ behavior numBases attempt idx s body, behavior idx attempt = .response s body →
        respOk s = false → ¬ ((s = 502 ∨ s = 503) ∧ attempt < 1) → ¬ (idx + 1 < numBases) →
        fetchJson behavior numBases attempt idx = .error (classifyFailure s (body.getD emptyObj)))
    ∧ (∀ behavior numBases attempt idx s, behavior idx attempt = .response s none →
        respOk s = true →
        fetchJson behavior numBases attempt idx = .ok emptyObj) := by
  refine ⟨?_, ?_, ?_, ?_, ?_⟩
  · intro s data u hu hc hm
    simp [classifyFailure, hu, hc, hm]
  · intro data hd
    simp [classifyFailure, hd]
  · intro s data hd hs
    simp [classifyFailure, hd, hs]
  · intro behavior numBases attempt idx s body h hok hretry hn
    rw [fetchJson.eq_def, h]
    simp only []
    rw [dif_neg hretry]
    simp [hok, hn]
  · intro behavior numBases attempt idx s h hok
    have hretry : ¬ ((s = 502 ∨ s = 503) ∧ attempt < 1) := by
      rintro ⟨h5 | h5, -⟩ <;> subst h5 <;> simp [respOk] at hok
    rw [fetchJson.eq_def, h]
    simp only []
    rw [dif_neg hretry]
    simp [hok]

/-- Witness for C5: a verbatim embedded error, the synthesized 404 and 503
classifications, the propagated classification at the last base, and a
malformed 2xx body degrading to the empty object. -/
theorem fetchJson_response_classification_witness :
    classifyFailure 500 (.mk (some ⟨"QUOTA", "limit reached", false⟩) 1) =
      .errObj "QUOTA" "limit reached" false
    ∧ classifyFailure 404 (.mk none 0) =
        .errObj "RUN_NOT_FOUND" ("ADK runtime request failed (" ++ toString 404 ++ ")") false
    ∧ classifyFailure 418 (.mk none 0) =
        .errObj "UPSTREAM_TIMEOUT" ("ADK runtime request failed (" ++ toString 418 ++ ")")
          (decide (500 ≤ 418))
    ∧ fetchJson (fun _ _ => .response 404 none) 1 0 0 =
        .error (classifyFailure 404 emptyObj)
    ∧ fetchJson (fun _ _ => .response 200 none) 1 0 0 = .ok emptyObj := by
  refine ⟨?_, ?_, ?_, ?_, ?_⟩
  · exact fetchJson_response_classification.1 500 (.mk (some ⟨"QUOTA", "limit reached", false⟩) 1)
      ⟨"QUOTA", "limit reached", false⟩ rfl (by decide) (by decide)
  · exact fetchJson_response_classification.2.1 (.mk none 0) rfl
  · exact fetchJson_response_classification.2.2.1 418 (.mk none 0) rfl (by decide)
  · exact fetchJson_response_classification.2.2.2.1 (fun _ _ => .response 404 none) 1 0 0 404 none
      rfl rfl (by decide) (by omega)
  · exact fetchJson_response_classification.2.2.2.2 (fun _ _ => .response 200 none) 1 0 0 200
      rfl rfl

theorem isUriUnreserved_ne_pct (c : Char) (h : isUriUnreserved c = true) :
    c ≠ Char.ofNat 37 := by
  intro hc
  rw [hc] at h
  exact absurd h (by decide)

theorem pctTokens_cons_chr (c : Char) (hne : c ≠ Char.ofNat 37) (t : List Char) :
    pctTokens (c :: t) = (pctTokens t).map (fun l => .chr c :: l) := by
  match t with
  | [] => simp [pctTokens, hne]
  | [h1] => simp [pctTokens, hne]
  | h1 :: h2 :: rest2 => simp [pctTokens, hne]

theorem pctTokens_triple (b : Nat) (hb : b < 256) (t : List Char) :
    pctTokens (pctTriple b ++ t) = (pctTokens t).map (fun l => .byte b :: l) := by
  have h1 := hexVal_hexDigitChar (b / 16) (by omega)
  have h2 := hexVal_hexDigitChar (b % 16) (by omega)
  simp [pctTriple, pctTokens, h1, h2, Nat.div_add_mod]

theorem utf8Bytes_lt_256 (n : Nat) (hn : n < 1114112) : ∀ b ∈ utf8Bytes n, b < 256 := by
  intro b hb
  unfold utf8Bytes at hb
  split at hb
  · simp at hb
    omega
  · split at hb
    · simp at hb
      rcases hb with h | h <;> omega
    · split at hb
      · simp at hb
        rcases hb with h | h | h <;> omega
      · simp at hb
        rcases hb with h | h | h | h <;> omega

theorem pctTokens_bytes (bs : List Nat) (hbs : ∀ b ∈ bs, b < 256) (t : List Char) :
    pctTokens (bs.flatMap pctTriple ++ t) = (pctTokens t).map (fun l => bs.map .byte ++ l) := by
  induction bs with
  | nil => simp
  | cons b bs ih =>
    have hb := hbs b (List.mem_cons_self b bs)
    have ih2 := ih (fun x hx => hbs x (List.mem_cons_of_mem b hx))
    simp only [List.flatMap_cons, List.append_assoc]
    rw [pctTokens_triple b hb, ih2]
    simp only [Option.map_map]
    rfl

theorem pctTokens_encChar (c : Char) (t : List Char) :
    pctTokens (encChar c ++ t) = (pctTokens t).map (fun l => encTokens c ++ l) := by
  by_cases h : isUriUnreserved c = true
  · rw [encChar, if_pos h, encTokens, if_pos h]
    simpa using pctTokens_cons_chr c (isUriUnreserved_ne_pct c h) t
  · rw [encChar, if_neg h, encTokens, if_neg h]
    have he : c.toNat = c.val.toNat := rfl
    have hv : c.toNat < 1114112 := by
      rcases c.valid with h1 | ⟨h1, h2⟩ <;> omega
    exact pctTokens_bytes (utf8Bytes c.toNat) (utf8Bytes_lt_256 c.toNat hv) t

theorem tokensDecode_nil : tokensDecode [] = some [] := by
  rw [tokensDecode.eq_def]

theorem tokensDecode_chr (c : Char) (rest : List PctToken) :
    tokensDecode (.chr c :: rest) = (tokensDecode rest).map (fun l => c :: l) := by
  conv_lhs => rw [tokensDecode.eq_def]

theorem tokensDecode_b1 (b0 : Nat) (rest : List PctToken) (h1 : b0 < 128) :
    tokensDecode (.byte b0 :: rest) = (tokensDecode rest).map (fun l => Char.ofNat b0 :: l) := by
  conv_lhs => rw [tokensDecode.eq_def]
  simp only []
  rw [if_pos h1]

theorem tokensDecode_b2 (b0 b1 : Nat) (rest : List PctToken)
    (h1 : 194 ≤ b0) (h2 : b0 < 224) (hc : isCont b1 = true) :
    tokensDecode (.byte b0 :: .byte b1 :: rest) =
      (tokensDecode rest).map (fun l => Char.ofNat ((b0 - 192) * 64 + (b1 - 128)) :: l) := by
  conv_lhs => rw [tokensDecode.eq_def]
  simp only [nextByte]
  rw [if_neg (by omega), if_neg (by omega), if_pos h2, if_pos hc]

theorem tokensDecode_b3 (b0 b1 b2 : Nat) (rest : List PctToken)
    (h1 : 224 ≤ b0) (h2 : b0 < 240) (hl : (lead3Ok b0 b1 && isCont b2) = true) :
    tokensDecode (.byte b0 :: .byte b1 :: .byte b2 :: rest) =
      (tokensDecode rest).map
        (fun l => Char.ofNat ((b0 - 224) * 4096 + (b1 - 128) * 64 + (b2 - 128)) :: l) := by
  conv_lhs => rw [tokensDecode.eq_def]
  simp only [nextByte]
  rw [if_neg (by omega), if_neg (by omega), if_neg (by omega), if_pos h2, if_pos hl]

theorem tokensDecode_b4 (b0 b1 b2 b3 : Nat) (rest : List PctToken)
    (h1 : 240 ≤ b0) (h2 : b0 < 245)
    (hl : (lead4Ok b0 b1 && isCont b2 && isCont b3) = true) :
    tokensDecode (.byte b0 :: .byte b1 :: .byte b2 :: .byte b3 :: rest) =
      (tokensDecode rest).map
        (fun l =>
          Char.ofNat ((b0 - 240) * 262144 + (b1 - 128) * 4096 + (b2 - 128) * 64 + (b3 - 128))
            :: l) := by
  conv_lhs => rw [tokensDecode.eq_def]
  simp only [nextByte]
  rw [if_neg (by omega), if_neg (by omega), if_neg (by omega), if_neg (by omega), if_pos h2,
    if_pos hl]

theorem tokensDecode_bytes (c : Char) (rest : List PctToken) :
    tokensDecode ((utf8Bytes c.toNat).map .byte ++ rest) =
      (tokensDecode rest).map (fun l => c :: l) := by
  have he : c.toNat = c.val.toNat := rfl
  have hv : c.toNat < 55296 ∨ (57343 < c.toNat ∧ c.toNat < 1114112) := c.valid
  have hofn : Char.ofNat c.toNat = c := Char.ofNat_toNat c
  rcases Nat.lt_or_ge c.toNat 128 with h1 | h1
  · have hb : utf8Bytes c.toNat = [c.toNat] := by
      unfold utf8Bytes
      rw [if_pos h1]
    rw [hb]
    simp only [List.map_cons, List.map_nil, List.cons_append, List.nil_append]
    rw [tokensDecode_b1 c.toNat rest h1, hofn]
  rcases Nat.lt_or_ge c.toNat 2048 with h2 | h2
  · have hb : utf8Bytes c.toNat = [192 + c.toNat / 64, 128 + c.toNat % 64] := by
      unfold utf8Bytes
      rw [if_neg (by omega), if_pos h2]
    rw [hb]
    simp only [List.map_cons, List.map_nil, List.cons_append, List.nil_append]
    rw [tokensDecode_b2 _ _ rest (by omega) (by omega)
      (by simp only [isCont, Bool.and_eq_true, decide_eq_true_eq]; omega)]
    have harg : (192 + c.toNat / 64 - 192) * 64 + (128 + c.toNat % 64 - 128) = c.toNat := by
      omega
    rw [harg, hofn]
  rcases Nat.lt_or_ge c.toNat 65536 with h3 | h3
  · have hb : utf8Bytes c.toNat =
        [224 + c.toNat / 4096, 128 + c.toNat / 64 % 64, 128 + c.toNat % 64] := by
      unfold utf8Bytes
      rw [if_neg (by omega), if_neg (by omega), if_pos h3]
    rw [hb]
    simp only [List.map_cons, List.map_nil, List.cons_append, List.nil_append]
    rw [tokensDecode_b3 _ _ _ rest (by omega) (by omega)
      (by simp only [lead3Ok, isCont, Bool.and_eq_true, Bool.or_eq_true, decide_eq_true_eq]
          omega)]
    have harg : (224 + c.toNat / 4096 - 224) * 4096 + (128 + c.toNat / 64 % 64 - 128) * 64 +
        (128 + c.toNat % 64 - 128) = c.toNat := by omega
    rw [harg, hofn]
  · have hb : utf8Bytes c.toNat =
        [240 + c.toNat / 262144, 128 + c.toNat / 4096 % 64, 128 + c.toNat / 64 % 64,
          128 + c.toNat % 64] := by
      unfold utf8Bytes
      rw [if_neg (by omega), if_neg (by omega), if_neg (by omega)]
    rw [hb]
    simp only [List.map_cons, List.map_nil, List.cons_append, List.nil_append]
    rw [tokensDecode_b4 _ _ _ _ rest (by omega) (by omega)
      (by simp only [lead4Ok, isCont, Bool.and_eq_true, Bool.or_eq_true, decide_eq_true_eq]
          omega)]
    have harg : (240 + c.toNat / 262144 - 240) * 262144 + (128 + c.toNat / 4096 % 64 - 128) * 4096
        + (128 + c.toNat / 64 % 64 - 128) * 64 + (128 + c.toNat % 64 - 128) = c.toNat := by
      omega
    rw [harg, hofn]

theorem tokensDecode_encTokens (c : Char) (rest : List PctToken) :
    tokensDecode (encTokens c ++ rest) = (tokensDecode rest).map (fun l => c :: l) := by
  by_cases h : isUriUnreserved c = true
  · rw [encTokens, if_pos h]
    simpa using tokensDecode_chr c rest
  · rw [encTokens, if_neg h]
    exact tokensDecode_bytes c rest

/-- Round trip of the percent-encoding model: decoding an encoded string
yields the original. -/
theorem decode_encode_roundtrip (s : List Char) :
    decodeURIComponentL (encodeURIComponentL s) = some s := by
  induction s with
  | nil => simp [decodeURIComponentL, encodeURIComponentL, pctTokens, tokensDecode_nil]
  | cons c rest ih =>
    rcases hp : pctTokens (encodeURIComponentL rest) with _ | toks
    · unfold decodeURIComponentL at ih
      rw [hp] at ih
      exact absurd ih (by simp)
    have htd : tokensDecode toks = some rest := by
      unfold decodeURIComponentL at ih
      rw [hp] at ih
      simpa using ih
    have henc : encodeURIComponentL (c :: rest) = encChar c ++ encodeURIComponentL rest := by
      simp [encodeURIComponentL]
    unfold decodeURIComponentL
    rw [henc, pctTokens_encChar c (encodeURIComponentL rest), hp]
    show tokensDecode (encTokens c ++ toks) = some (c :: rest)
    rw [tokensDecode_encTokens c toks, htd]
    rfl


theorem hexDigitChar_safe (k : Nat) (h : k < 16) :
    isJsWhitespace (hexDigitChar k) = false ∧ isLineTerm (hexDigitChar k) = false := by
  interval_cases k <;> decide

theorem unreserved_safe (c : Char) (h : isUriUnreserved c = true) :
    isJsWhitespace c = false ∧ isLineTerm c = false := by
  simp only [isUriUnreserved, Bool.or_eq_true, Bool.and_eq_true, decide_eq_true_eq] at h
  constructor
  · rw [Bool.eq_false_iff]
    intro hc
    simp only [isJsWhitespace, Bool.or_eq_true, Bool.and_eq_true, decide_eq_true_eq] at hc
    omega
  · rw [Bool.eq_false_iff]
    intro hc
    simp only [isLineTerm, Bool.or_eq_true, decide_eq_true_eq] at hc
    omega

theorem encChar_safe (c : Char) (x : Char) (hx : x ∈ encChar c) :
    isJsWhitespace x = false ∧ isLineTerm x = false := by
  rw [encChar] at hx
  by_cases h : isUriUnreserved c = true
  · rw [if_pos h] at hx
    simp at hx
    rw [hx]
    exact unreserved_safe c h
  · rw [if_neg h] at hx
    simp only [List.mem_flatMap] at hx
    obtain ⟨b, hb, hxx⟩ := hx
    have hv : c.toNat < 1114112 := by
      have he : c.toNat = c.val.toNat := rfl
      rcases c.valid with h1 | ⟨h1, h2⟩ <;> omega
    have hb256 := utf8Bytes_lt_256 c.toNat hv b hb
    simp only [pctTriple, List.mem_cons, List.not_mem_nil, or_false] at hxx
    rcases hxx with hxx | hxx | hxx <;> subst hxx
    · decide
    · exact hexDigitChar_safe (b / 16) (by omega)
    · exact hexDigitChar_safe (b % 16) (by omega)


theorem dropWhile_eq_self_of_all (p : Char → Bool) (l : List Char)
    (h : ∀ x ∈ l, p x = false) : l.dropWhile p = l := by
  cases l with
  | nil => rfl
  | cons c rest => simp [List.dropWhile_cons, h c (List.mem_cons_self c rest)]

theorem trimCharsL_eq_self (s : List Char) (h : ∀ x ∈ s, isJsWhitespace x = false) :
    trimCharsL s = s := by
  unfold trimCharsL
  rw [dropWhile_eq_self_of_all _ s h]
  rw [dropWhile_eq_self_of_all _ s.reverse (fun x hx => h x (List.mem_reverse.mp hx))]
  exact List.reverse_reverse s

theorem encChar_ne_nil (c : Char) : encChar c ≠ [] := by
  rw [encChar]
  by_cases h : isUriUnreserved c = true
  · simp [h]
  · rw [if_neg h]
    unfold utf8Bytes
    split
    · simp [pctTriple]
    · split
      · simp [pctTriple]
      · split <;> simp [pctTriple]

theorem encodeURIComponentL_ne_nil (s : List Char) (h : s ≠ []) :
    encodeURIComponentL s ≠ [] := by
  cases s with
  | nil => exact absurd rfl h
  | cons c rest =>
    simp only [encodeURIComponentL, List.flatMap_cons, ne_eq, List.append_eq_nil]
    intro hc
    exact encChar_ne_nil c hc.1

theorem parsePoomRefL_poom (v g d : List Char) (hv : v ≠ []) (ht : trimCharsL v = v)
    (hcap : poomCapture v = some g) (hdec : decodeURIComponentL g = some d) :
    parsePoomRefL (some v) = .ok (some d) := by
  unfold parsePoomRefL
  simp only []
  rw [if_neg hv]
  simp only [ht]
  rw [if_neg hv, hcap]
  simp only []
  rw [hdec]

/-- Claim C10: round trip of the poom reference encoding. -/
theorem poomRef_roundtrip (runId : String) (h : runId ≠ "") :
    parsePoomRef (some (toPoomUrl runId)) = .ok (some runId) := by
  have hs : runId.data ≠ [] := by
    intro hc
    exact h (congrArg String.mk hc)
  have henc := encodeURIComponentL_ne_nil runId.data hs
  have hsafe : ∀ x ∈ encodeURIComponentL runId.data,
      isJsWhitespace x = false ∧ isLineTerm x = false := by
    intro x hx
    simp only [encodeURIComponentL, List.mem_flatMap] at hx
    obtain ⟨c, -, hx⟩ := hx
    exact encChar_safe c x hx
  have hhead : ∀ x ∈ poomUrlHead, isJsWhitespace x = false := by decide
  have hvsafe : ∀ x ∈ poomUrlHead ++ encodeURIComponentL runId.data,
      isJsWhitespace x = false := by
    intro x hx
    rcases List.mem_append.mp hx with hx | hx
    · exact hhead x hx
    · exact (hsafe x hx).1
  have hvne : poomUrlHead ++ encodeURIComponentL runId.data ≠ [] := by
    simp [poomUrlHead]
  have ht := trimCharsL_eq_self _ hvsafe
  have h11 : (poomUrlHead ++ encodeURIComponentL runId.data).take 11 = poomUrlHead := by
    rw [show (11 : Nat) = poomUrlHead.length from rfl, List.take_left]
  have hdrop : (poomUrlHead ++ encodeURIComponentL runId.data).drop 11 =
      encodeURIComponentL runId.data := by
    rw [show (11 : Nat) = poomUrlHead.length from rfl, List.drop_left]
  have hcap : poomCapture (poomUrlHead ++ encodeURIComponentL runId.data) =
      some (encodeURIComponentL runId.data) := by
    unfold poomCapture
    rw [h11, hdrop]
    rw [if_pos ⟨by decide, henc, by
      rw [List.all_eq_true]
      intro x hx
      simp [(hsafe x hx).2]⟩]
  have hbody := parsePoomRefL_poom (poomUrlHead ++ encodeURIComponentL runId.data)
    (encodeURIComponentL runId.data) runId.data hvne ht hcap
    (decode_encode_roundtrip runId.data)
  show (parsePoomRefL (some (poomUrlHead ++ encodeURIComponentL runId.data))).map
      (fun o => o.map String.mk) = .ok (some runId)
  rw [hbody]
  rfl

/-- Witness for C10: a concrete identifier with a space (escaped as `%20`)
round trips through the reference URL. -/
theorem poomRef_roundtrip_witness :
    parsePoomRef (some (toPoomUrl "abc def")) = .ok (some "abc def") :=
  poomRef_roundtrip "abc def" (by decide)


theorem pctTokens_some_ne_nil (c : Char) (t : List Char) (l : List PctToken)
    (h : pctTokens (c :: t) = some l) : l ≠ [] := by
  match t with
  | [] =>
    simp only [pctTokens] at h
    repeat' split at h
    all_goals first
      | (obtain ⟨l2, -, hl⟩ := Option.map_eq_some'.mp h
         rw [← hl]
         simp)
      | exact absurd h (by simp)
  | [h1] =>
    simp only [pctTokens] at h
    repeat' split at h
    all_goals first
      | (obtain ⟨l2, -, hl⟩ := Option.map_eq_some'.mp h
         rw [← hl]
         simp)
      | exact absurd h (by simp)
  | h1 :: h2 :: rest2 =>
    simp only [pctTokens] at h
    repeat' split at h
    all_goals first
      | (obtain ⟨l2, -, hl⟩ := Option.map_eq_some'.mp h
         rw [← hl]
         simp)
      | exact absurd h (by simp)

theorem tokensDecode_some_ne_nil (tok : PctToken) (rest : List PctToken) (l : List Char)
    (h : tokensDecode (tok :: rest) = some l) : l ≠ [] := by
  match tok with
  | .chr c =>
    rw [tokensDecode_chr] at h
    obtain ⟨l2, -, hl⟩ := Option.map_eq_some'.mp h
    rw [← hl]
    simp
  | .byte b0 =>
    rw [tokensDecode.eq_def] at h
    simp only [] at h
    repeat' split at h
    all_goals first
      | (obtain ⟨l2, -, hl⟩ := Option.map_eq_some'.mp h
         rw [← hl]
         simp)
      | exact absurd h (by simp)

theorem decodeURIComponentL_some_ne_nil (v : List Char) (d : List Char) (hv : v ≠ [])
    (h : decodeURIComponentL v = some d) : d ≠ [] := by
  match v with
  | c :: t =>
    unfold decodeURIComponentL at h
    rcases hp : pctTokens (c :: t) with _ | toks
    · rw [hp] at h
      exact absurd h (by simp)
    rw [hp] at h
    have h2 : tokensDecode toks = some d := h
    have htoks := pctTokens_some_ne_nil c t toks hp
    match toks with
    | tok :: toks2 => exact tokensDecode_some_ne_nil tok toks2 d h2


theorem poomCapture_ne_nil (t g : List Char) (h : poomCapture t = some g) : g ≠ [] := by
  unfold poomCapture at h
  split at h
  · rename_i hcond
    obtain ⟨-, hne, -⟩ := hcond
    obtain rfl : t.drop 11 = g := by simpa using h
    exact hne
  · exact absurd h (by simp)

theorem queryCapture_ne_nil (t q : List Char) (h : queryCapture t = some q) : q ≠ [] := by
  induction t with
  | nil => exact absurd h (by simp [queryCapture])
  | cons c rest ih =>
    rw [queryCapture] at h
    split at h
    · rename_i hcond
      obtain ⟨-, -, hhd⟩ := hcond
      obtain rfl : (rest.drop 7).takeWhile notAmpHash = q := by simpa using h
      match hd : rest.drop 7, hhd with
      | d :: l2, hhd =>
        simp only [headNotAmpHash] at hhd
        simp [List.takeWhile_cons, hhd]
    · exact ih h

theorem parsePoomRefL_ok_ne_nil (v r : List Char)
    (h : parsePoomRefL (some v) = .ok (some r)) : r ≠ [] := by
  unfold parsePoomRefL at h
  simp only [] at h
  split at h
  · exact absurd h (by simp)
  rename_i hv
  split at h
  · exact absurd h (by simp)
  rename_i ht
  split at h
  · rename_i g hcap
    split at h
    · rename_i d hdec
      obtain rfl : d = r := by simpa using h
      exact decodeURIComponentL_some_ne_nil g d (poomCapture_ne_nil _ g hcap) hdec
    · exact absurd h (by simp [uriError])
  · split at h
    · rename_i q hq
      split at h
      · rename_i d hdec
        obtain rfl : d = r := by simpa using h
        exact decodeURIComponentL_some_ne_nil q d (queryCapture_ne_nil _ q hq) hdec
      · exact absurd h (by simp [uriError])
    · obtain rfl : trimCharsL v = r := by simpa using h
      exact ht

theorem parsePoomRef_ok_ne_empty (pr : Option String) (r : String)
    (h : parsePoomRef pr = .ok (some r)) : r ≠ "" := by
  match pr with
  | none => exact absurd h (by simp [parsePoomRef, parsePoomRefL, Except.map])
  | some v =>
    unfold parsePoomRef at h
    have h2 : (parsePoomRefL (some v.data)).map (fun o => o.map String.mk) =
        .ok (some r) := h
    rcases hL : parsePoomRefL (some v.data) with e | o
    · rw [hL] at h2
      exact absurd h2 (by simp [Except.map])
    rw [hL] at h2
    match o, h2 with
    | some r2, h2 =>
      have hr2 : String.mk r2 = r := by simpa [Except.map] using h2
      have hne := parsePoomRefL_ok_ne_nil v.data r2 hL
      intro hc
      apply hne
      have : r2 = r.data := by rw [← hr2]
      rw [this, hc]


/-- Claim C6: open_run_player resolves the run identifier in priority
order: a truthy explicit run_id wins outright; else a reference that
parses to a run id wins; else a truthy environment default; else the
first entry of the fetched run list; and with nothing given and an empty
run list, resolution fails with a non-retryable RUN_NOT_FOUND error. -/
theorem open_run_resolution :
    (∀ (rid : String) (pr dflt : Option String) (runs : Except JsValue (List RunInfo)),
        rid ≠ "" → openRunResolve (some rid) pr dflt runs = .ok rid)
    ∧ (∀ (run_id pr : Option String) (r : String) (dflt : Option String)
        (runs : Except JsValue (List RunInfo)),
        (run_id = none ∨ run_id = some "") → parsePoomRef pr = .ok (some r) →
        openRunResolve run_id pr dflt runs = .ok r)
    ∧ (∀ (run_id pr : Option String) (d : String) (runs : Except JsValue (List RunInfo)),
        (run_id = none ∨ run_id = some "") → parsePoomRef pr = .ok none →
        d ≠ "" → openRunResolve run_id pr (some d) runs = .ok d)
    ∧ (∀ (run_id pr : Option String) (r : RunInfo) (rest : List RunInfo),
        (run_id = none ∨ run_id = some "") → parsePoomRef pr = .ok none →
        openRunResolve run_id pr none (.ok (r :: rest)) = .ok r.run_id)
    ∧ (∀ run_id pr : Option String,
        (run_id = none ∨ run_id = some "") → parsePoomRef pr = .ok none →
        openRunResolve run_id pr none (.ok []) =
          .error (.errObj "RUN_NOT_FOUND" "No tutorial runs are currently available" false)) := by
  refine ⟨?_, ?_, ?_, ?_, ?_⟩
  · intro rid pr dflt runs h
    simp [openRunResolve, runIdOrRef, h, resolveRunId]
  · intro run_id pr r dflt runs hrid hpr
    have hne := parsePoomRef_ok_ne_empty pr r hpr
    rcases hrid with rfl | rfl <;>
      simp [openRunResolve, runIdOrRef, hpr, resolveRunId, hne]
  · intro run_id pr d runs hrid hpr hd
    rcases hrid with rfl | rfl <;>
      simp [openRunResolve, runIdOrRef, hpr, resolveRunId, resolveRunIdDefault, hd]
  · intro run_id pr r rest hrid hpr
    rcases hrid with rfl | rfl <;>
      simp [openRunResolve, runIdOrRef, hpr, resolveRunId, resolveRunIdDefault,
        resolveRunIdFromList]
  · intro run_id pr hrid hpr
    rcases hrid with rfl | rfl <;>
      simp [openRunResolve, runIdOrRef, hpr, resolveRunId, resolveRunIdDefault,
        resolveRunIdFromList]

/-- Witness for C6, exercising every priority level at concrete inputs. -/
theorem open_run_resolution_witness :
    openRunResolve (some "explicit") (some "poom://run/x") none (.ok []) = .ok "explicit"
    ∧ openRunResolve none (some " plain-ref ") (some "dflt") (.ok []) = .ok "plain-ref"
    ∧ openRunResolve none none (some "dflt") (.ok []) = .ok "dflt"
    ∧ openRunResolve none none none (.ok [⟨"r1", "m", "c", 2, 10⟩]) = .ok "r1"
    ∧ openRunResolve none none none (.ok []) =
        .error (.errObj "RUN_NOT_FOUND" "No tutorial runs are currently available" false) := by
  refine ⟨?_, ?_, ?_, ?_, ?_⟩
  · exact open_run_resolution.1 "explicit" (some "poom://run/x") none (.ok []) (by decide)
  · exact open_run_resolution.2.1 none (some " plain-ref ") "plain-ref" (some "dflt") (.ok [])
      (Or.inl rfl) rfl
  · exact open_run_resolution.2.2.1 none none "dflt" (.ok []) (Or.inl rfl) rfl (by decide)
  · exact open_run_resolution.2.2.2.1 none none ⟨"r1", "m", "c", 2, 10⟩ [] (Or.inl rfl) rfl
  · exact open_run_resolution.2.2.2.2 none none (Or.inl rfl) rfl

end Peazy
